import Mathlib

/-
Verification of the chunking core of the finlex-ingestion pipeline.

The embedded source files are
  src/examples/finlex-ingestion/src/chunk.py          (single-pass variant)
  src/examples/finlex-ingestion/src-multi/stage3_chunk.py  (staged variant)

Python text is modelled as a list of characters, and a Python dict of a
fixed shape is modelled as a structure.  The token cursor of the splitter
loop is modelled as a natural number together with an explicit fuel
argument: the loop state is the cursor alone, the cursor ranges over
0..len(tokens), so a run of more than len(tokens) + 1 iterations revisits
a cursor value and the Python loop never exits; hence fuel
len(tokens) + 1 is exhausted exactly on the nonterminating runs, which
the embedding reports as none.
-/

namespace Chunking

/-- Python str, modelled as a list of characters. -/
abbrev Str := List Char

/-- The tokenizer adapter interface: encode to token ids, decode back. -/
structure Tokenizer where
  encode : Str → List Nat
  decode : List Nat → Str

/-- Modelled from the spec: the tokenizer adapter of section 4.1 wraps the
external tiktoken cl100k_base encoding, whose implementation is not part
of the repository sources.  Following the contract of section 4.1
(decode after encode preserves the text for length purposes), we use a
concrete encoding with one token id per character and an exact
round-trip. -/
def charTok : Tokenizer where
  encode s := s.map Char.toNat
  decode l := l.map Char.ofNat

/-- A parsed section, as consumed by chunk.py: dict keys number, heading,
paragraphs.  A key that is absent is none; a key that is present but
holds the empty string is some [] (Python truthiness distinguishes
neither, and the embedding of the truthiness tests below collapses both
the same way the source does). -/
structure DocSection where
  number : Option Str
  heading : Option Str
  paragraphs : List Str
  deriving DecidableEq, Repr

/-- A parsed document, as consumed by chunk_document.  Keys read with
doc.get and a default are modelled with the default applied at the use
site, exactly as in the source. -/
structure ParsedDocument where
  document_id : Str
  title : Str
  document_type : Option Str
  publication_date : Option Str
  effective_date : Option Str
  year : Option Int
  sections : List DocSection
  full_text : Str
  last_modified : Option Str
  deriving DecidableEq, Repr

/-- The chunk record built by create_chunk_dict (chunk.py lines 220-233). -/
structure ChunkRecord where
  id : Str
  document_id : Str
  document_type : Str
  title : Str
  content : Str
  publication_date : Option Str
  effective_date : Option Str
  year : Option Int
  section_number : Option Str
  section_heading : Option Str
  chunk_index : Nat
  last_modified : Option Str
  deriving DecidableEq, Repr

/-- MIN_CHUNK_SIZE (chunk.py line 12). -/
def MIN_CHUNK_SIZE : Nat := 800

/-- MAX_CHUNK_SIZE (chunk.py line 13). -/
def MAX_CHUNK_SIZE : Nat := 1000

/-- OVERLAP_SIZE (chunk.py line 14). -/
def OVERLAP_SIZE : Nat := 100

/-- The loop condition of chunk.py line 192: text[i] is one of . ! ? and
is followed by whitespace or by the end of the string.  For an index at
or past the end of the text the condition is false (the Python loop
never evaluates it there). -/
def pySentenceEnd (text : Str) (i : Nat) : Bool :=
  match text.get? i with
  | some c =>
    (c == '.' || c == '!' || c == '?') &&
    (match text.get? (i + 1) with
     | some d => d.isWhitespace
     | none => true)
  | none => false

/-- A double newline starts at position p (the needle of the Python call
text.find of two newline characters, chunk.py line 196). -/
def isDNL (text : Str) (p : Nat) : Bool :=
  text.get? p == some '\n' && text.get? (p + 1) == some '\n'

/-- The scan of chunk.py lines 191-193, with the iteration count of
range(start_pos, len(text)) made explicit: returns the first index at
or after i satisfying pySentenceEnd, if any. -/
def scanSentenceAux (text : Str) : Nat → Nat → Option Nat
  | 0, _ => none
  | n + 1, i => if pySentenceEnd text i then some i else scanSentenceAux text n (i + 1)

/-- First index at or after startPos where a sentence ends (the loop of
chunk.py lines 191-193). -/
def scanSentence (text : Str) (startPos : Nat) : Option Nat :=
  scanSentenceAux text (text.length - startPos) startPos

/-- The scan performed by the Python call text.find with a double
newline needle, from index i. -/
def findDNLAux (text : Str) : Nat → Nat → Option Nat
  | 0, _ => none
  | n + 1, i => if isDNL text i then some i else findDNLAux text n (i + 1)

/-- text.find of a double newline from startPos (chunk.py line 196):
first index at or after startPos where a double newline starts, if any. -/
def findDoubleNewline (text : Str) (startPos : Nat) : Option Nat :=
  findDNLAux text (text.length - startPos) startPos

/-- find_sentence_boundary (chunk.py lines 179-200).  Returns the index
just past the first sentence-ending punctuation at or after startPos;
otherwise the index of the first double newline when that index is
positive; otherwise -1. -/
def find_sentence_boundary (text : Str) (startPos : Nat) : Int :=
  match scanSentence text startPos with
  | some i => (i : Int) + 1
  | none =>
    match findDoubleNewline text startPos with
    | some p => if 0 < p then (p : Int) else -1
    | none => -1

/-- The body of one iteration of the chunk_text loop (chunk.py lines
153-170): the emitted text and the end cursor of the iteration.  The
tentative end is min(start + maxSize, len); the token slice is decoded;
when more text remains and the slice reaches minSize tokens, a sentence
or paragraph boundary is searched from 80 percent of the way through
the decoded slice, and on success the text is truncated there and the
end cursor recomputed from the re-encoded truncation.  The Python
expression int(len(chunk_text) * 0.8) equals 8 * len / 10 in integer
arithmetic for every length arising here (the float product of a
natural number below 2 to the 50 with 0.8 never rounds across an
integer, as its fractional part is a multiple of one fifth). -/
def chunkPiece (T : Tokenizer) (tokens : List Nat) (minSize maxSize start : Nat) :
    Str × Nat :=
  let e := min (start + maxSize) tokens.length
  let chunkTokens := (tokens.drop start).take (e - start)
  let txt := T.decode chunkTokens
  if e < tokens.length ∧ minSize ≤ chunkTokens.length then
    let searchStart := 8 * txt.length / 10
    let se := find_sentence_boundary txt searchStart
    if 0 < se then
      let txt2 := txt.take se.toNat
      (txt2, start + (T.encode txt2).length)
    else (txt, e)
  else (txt, e)

def chunkTextLoop (T : Tokenizer) (tokens : List Nat) (minSize maxSize overlap : Nat) :
    Nat → Nat → Option (List Str)
  | 0, start => if start < tokens.length then none else some []
  | fuel + 1, start =>
    if start < tokens.length then
      let p := chunkPiece T tokens minSize maxSize start
      let nextStart := if p.2 < tokens.length then p.2 - overlap else p.2
      (chunkTextLoop T tokens minSize maxSize overlap fuel nextStart).map
        (fun rest => p.1 :: rest)
    else some []

/-- chunk_text (chunk.py lines 129-177).  A text whose token count is
within maxSize is returned unchanged as a single chunk; otherwise the
splitter loop runs with fuel len(tokens) + 1, which suffices for every
terminating run of the Python loop (see the header note); none models a
nonterminating run. -/
def chunk_text (T : Tokenizer) (text : Str) (minSize maxSize overlap : Nat) :
    Option (List Str) :=
  let tokens := T.encode text
  if tokens.length ≤ maxSize then some [text]
  else chunkTextLoop T tokens minSize maxSize overlap (tokens.length + 1) 0

/-- Python truthiness of an optional string: None and the empty string
are falsy. -/
def optTruthy (o : Option Str) : Bool :=
  match o with
  | some s => !s.isEmpty
  | none => false

/-- The section text composed by chunk_section (chunk.py lines 95-102):
the heading prefixed with two hash marks when truthy, then every
paragraph, joined with blank lines. -/
def sectionText (s : DocSection) : Str :=
  let parts :=
    (if optTruthy s.heading then [("## ").data ++ s.heading.getD []] else []) ++
      s.paragraphs
  List.intercalate ("\n\n").data parts

/-- create_chunk_dict (chunk.py lines 202-233).  The id concatenates the
document id, the literal text _chunk_ and the decimal chunk index. -/
def create_chunk_dict (doc : ParsedDocument) (content : Str) (chunk_index : Nat)
    (section_number : Option Str) (section_heading : Option Str) : ChunkRecord :=
  { id := doc.document_id ++ ("_chunk_").data ++ (Nat.repr chunk_index).data
    document_id := doc.document_id
    document_type := doc.document_type.getD ("statute").data
    title := doc.title
    content := content
    publication_date := doc.publication_date
    effective_date := doc.effective_date
    year := doc.year
    section_number := section_number
    section_heading := section_heading
    chunk_index := chunk_index
    last_modified := doc.last_modified }

/-- chunk_section (chunk.py lines 80-127).  A section whose text fits
the token budget yields a single record with local index 0; an
oversized section is split by chunk_text and each piece yields a record
with its local enumeration index.  none models a nonterminating run of
the splitter. -/
def chunk_section (T : Tokenizer) (doc : ParsedDocument) (s : DocSection) :
    Option (List ChunkRecord) :=
  let st := sectionText s
  let tokens := T.encode st
  if tokens.length ≤ MAX_CHUNK_SIZE then
    some [create_chunk_dict doc st 0 s.number s.heading]
  else
    (chunk_text T st MIN_CHUNK_SIZE MAX_CHUNK_SIZE OVERLAP_SIZE).map
      (fun ts => ts.enum.map (fun p => create_chunk_dict doc p.2 p.1 s.number s.heading))

/-- The section loop of chunk_document (chunk.py lines 58-63), before
renumbering: per-section chunk lists concatenated in document order. -/
def chunkSections (T : Tokenizer) (doc : ParsedDocument) :
    List DocSection → Option (List ChunkRecord)
  | [] => some []
  | s :: rest =>
    match chunk_section T doc s, chunkSections T doc rest with
    | some cs, some csRest => some (cs ++ csRest)
    | _, _ => none

/-- The global renumbering of chunk.py lines 60-63: the statement
chunk[chunk_index] = counter overwrites only the chunk_index field of
each record, in order, leaving every other field (the id included)
unchanged. -/
def renumber : List ChunkRecord → Nat → List ChunkRecord
  | [], _ => []
  | c :: cs, i => { c with chunk_index := i } :: renumber cs (i + 1)

/-- chunk_document (chunk.py lines 41-78).  When the sections list is
truthy the section path runs and the chunk_index fields are renumbered
sequentially across the document; otherwise, when full_text is truthy,
the splitter runs on it directly; otherwise the result is empty. -/
def chunk_document (T : Tokenizer) (doc : ParsedDocument) :
    Option (List ChunkRecord) :=
  if !doc.sections.isEmpty then
    (chunkSections T doc doc.sections).map (fun cs => renumber cs 0)
  else if !doc.full_text.isEmpty then
    (chunk_text T doc.full_text MIN_CHUNK_SIZE MAX_CHUNK_SIZE OVERLAP_SIZE).map
      (fun ts => ts.enum.map (fun p => create_chunk_dict doc p.2 p.1 none none))
  else
    some []

/-!
The staged-pipeline variant, stage3_chunk.py.  The chunking functions
there are a separate copy of the single-pass ones, with the size
configuration read from environment variables; the embedding uses the
documented default values.  The data model is shared (both variants
read the same parsed JSON shape).
-/

namespace Multi

/-- MIN_CHUNK_SIZE of stage3_chunk.py line 29, at its default 800. -/
def MIN_CHUNK_SIZE : Nat := 800

/-- MAX_CHUNK_SIZE of stage3_chunk.py line 30, at its default 1000. -/
def MAX_CHUNK_SIZE : Nat := 1000

/-- OVERLAP_SIZE of stage3_chunk.py line 31, at its default 100. -/
def OVERLAP_SIZE : Nat := 100

/-- The loop condition of stage3_chunk.py line 137. -/
def pySentenceEnd (text : Str) (i : Nat) : Bool :=
  match text.get? i with
  | some c =>
    (c == '.' || c == '!' || c == '?') &&
    (match text.get? (i + 1) with
     | some d => d.isWhitespace
     | none => true)
  | none => false

/-- Double newline at position p (stage3_chunk.py line 141). -/
def isDNL (text : Str) (p : Nat) : Bool :=
  text.get? p == some '\n' && text.get? (p + 1) == some '\n'

/-- The scan of stage3_chunk.py lines 136-138. -/
def scanSentenceAux (text : Str) : Nat → Nat → Option Nat
  | 0, _ => none
  | n + 1, i => if pySentenceEnd text i then some i else scanSentenceAux text n (i + 1)

/-- First sentence end at or after startPos (stage3_chunk.py lines 136-138). -/
def scanSentence (text : Str) (startPos : Nat) : Option Nat :=
  scanSentenceAux text (text.length - startPos) startPos

/-- The scan of the text.find call of stage3_chunk.py line 141. -/
def findDNLAux (text : Str) : Nat → Nat → Option Nat
  | 0, _ => none
  | n + 1, i => if isDNL text i then some i else findDNLAux text n (i + 1)

/-- text.find of a double newline from startPos (stage3_chunk.py line 141). -/
def findDoubleNewline (text : Str) (startPos : Nat) : Option Nat :=
  findDNLAux text (text.length - startPos) startPos

/-- find_sentence_boundary (stage3_chunk.py lines 134-145). -/
def find_sentence_boundary (text : Str) (startPos : Nat) : Int :=
  match scanSentence text startPos with
  | some i => (i : Int) + 1
  | none =>
    match findDoubleNewline text startPos with
    | some p => if 0 < p then (p : Int) else -1
    | none => -1

/-- The body of one iteration of the loop of stage3_chunk.py lines
115-127; the sizes are the module constants. -/
def chunkPiece (T : Tokenizer) (tokens : List Nat) (start : Nat) : Str × Nat :=
  let e := min (start + MAX_CHUNK_SIZE) tokens.length
  let chunkTokens := (tokens.drop start).take (e - start)
  let txt := T.decode chunkTokens
  if e < tokens.length ∧ MIN_CHUNK_SIZE ≤ chunkTokens.length then
    let searchStart := 8 * txt.length / 10
    let se := find_sentence_boundary txt searchStart
    if 0 < se then
      let txt2 := txt.take se.toNat
      (txt2, start + (T.encode txt2).length)
    else (txt, e)
  else (txt, e)

/-- The while loop of stage3_chunk.py lines 114-130, fuelled as in the
single-pass embedding. -/
def chunkTextLoop (T : Tokenizer) (tokens : List Nat) :
    Nat → Nat → Option (List Str)
  | 0, start => if start < tokens.length then none else some []
  | fuel + 1, start =>
    if start < tokens.length then
      let p := chunkPiece T tokens start
      let nextStart := if p.2 < tokens.length then p.2 - OVERLAP_SIZE else p.2
      (chunkTextLoop T tokens fuel nextStart).map (fun rest => p.1 :: rest)
    else some []

/-- chunk_text (stage3_chunk.py lines 104-132). -/
def chunk_text (T : Tokenizer) (text : Str) : Option (List Str) :=
  let tokens := T.encode text
  if tokens.length ≤ MAX_CHUNK_SIZE then some [text]
  else chunkTextLoop T tokens (tokens.length + 1) 0

/-- The section text composed by stage3_chunk.py lines 71-78. -/
def sectionText (s : DocSection) : Str :=
  let parts :=
    (if optTruthy s.heading then [("## ").data ++ s.heading.getD []] else []) ++
      s.paragraphs
  List.intercalate ("\n\n").data parts

/-- create_chunk_dict (stage3_chunk.py lines 147-165). -/
def create_chunk_dict (doc : ParsedDocument) (content : Str) (chunk_index : Nat)
    (section_number : Option Str) (section_heading : Option Str) : ChunkRecord :=
  { id := doc.document_id ++ ("_chunk_").data ++ (Nat.repr chunk_index).data
    document_id := doc.document_id
    document_type := doc.document_type.getD ("statute").data
    title := doc.title
    content := content
    publication_date := doc.publication_date
    effective_date := doc.effective_date
    year := doc.year
    section_number := section_number
    section_heading := section_heading
    chunk_index := chunk_index
    last_modified := doc.last_modified }

/-- chunk_section (stage3_chunk.py lines 66-102). -/
def chunk_section (T : Tokenizer) (doc : ParsedDocument) (s : DocSection) :
    Option (List ChunkRecord) :=
  let st := sectionText s
  let tokens := T.encode st
  if tokens.length ≤ MAX_CHUNK_SIZE then
    some [create_chunk_dict doc st 0 s.number s.heading]
  else
    (chunk_text T st).map
      (fun ts => ts.enum.map (fun p => create_chunk_dict doc p.2 p.1 s.number s.heading))

/-- The section loop of stage3_chunk.py lines 44-49, before renumbering. -/
def chunkSections (T : Tokenizer) (doc : ParsedDocument) :
    List DocSection → Option (List ChunkRecord)
  | [] => some []
  | s :: rest =>
    match chunk_section T doc s, chunkSections T doc rest with
    | some cs, some csRest => some (cs ++ csRest)
    | _, _ => none

/-- The renumbering of stage3_chunk.py lines 46-49. -/
def renumber : List ChunkRecord → Nat → List ChunkRecord
  | [], _ => []
  | c :: cs, i => { c with chunk_index := i } :: renumber cs (i + 1)

/-- chunk_document (stage3_chunk.py lines 36-64). -/
def chunk_document (T : Tokenizer) (doc : ParsedDocument) :
    Option (List ChunkRecord) :=
  if !doc.sections.isEmpty then
    (chunkSections T doc doc.sections).map (fun cs => renumber cs 0)
  else if !doc.full_text.isEmpty then
    (chunk_text T doc.full_text).map
      (fun ts => ts.enum.map (fun p => create_chunk_dict doc p.2 p.1 none none))
  else
    some []

end Multi

/-!  Basic lemmas about the concrete tokenizer.  -/

lemma charTok_encode_length (s : Str) : (charTok.encode s).length = s.length := by
  simp [charTok]

lemma charTok_decode_length (l : List Nat) : (charTok.decode l).length = l.length := by
  simp [charTok]

lemma charTok_decode_encode (s : Str) : charTok.decode (charTok.encode s) = s := by
  have hcomp : Char.ofNat ∘ Char.toNat = id := funext Char.ofNat_toNat
  simp [charTok, List.map_map, hcomp]

/-!  Characterization of the two scans inside find_sentence_boundary.  -/

lemma pySentenceEnd_lt {text : Str} {i : Nat} (h : pySentenceEnd text i = true) :
    i < text.length := by
  by_contra hge
  have hnone : text[i]? = none := List.getElem?_eq_none (by omega)
  simp [pySentenceEnd, List.get?_eq_getElem?, hnone] at h

lemma isDNL_lt {text : Str} {p : Nat} (h : isDNL text p = true) :
    p + 1 < text.length := by
  by_contra hge
  have hnone : text[p + 1]? = none := List.getElem?_eq_none (by omega)
  simp [isDNL, List.get?_eq_getElem?, hnone] at h

lemma scanSentenceAux_some (text : Str) :
    ∀ n i j, scanSentenceAux text n i = some j →
      i ≤ j ∧ pySentenceEnd text j = true ∧
        ∀ k, i ≤ k → k < j → pySentenceEnd text k = false := by
  intro n
  induction n with
  | zero => intro i j h; simp [scanSentenceAux] at h
  | succ n ih =>
    intro i j h
    rw [scanSentenceAux] at h
    by_cases hp : pySentenceEnd text i = true
    · simp [hp] at h
      subst h
      exact ⟨Nat.le_refl _, hp, fun k h1 h2 => absurd h1 (by omega)⟩
    · simp [hp] at h
      obtain ⟨h1, h2, h3⟩ := ih (i + 1) j h
      refine ⟨by omega, h2, fun k hk1 hk2 => ?_⟩
      rcases Nat.eq_or_lt_of_le hk1 with rfl | hlt
      · simpa using hp
      · exact h3 k (by omega) hk2

lemma scanSentenceAux_none (text : Str) :
    ∀ n i, scanSentenceAux text n i = none →
      ∀ k, i ≤ k → k < i + n → pySentenceEnd text k = false := by
  intro n
  induction n with
  | zero => intro i h k h1 h2; omega
  | succ n ih =>
    intro i h k h1 h2
    rw [scanSentenceAux] at h
    by_cases hp : pySentenceEnd text i = true
    · simp [hp] at h
    · simp [hp] at h
      rcases Nat.eq_or_lt_of_le h1 with rfl | hlt
      · simpa using hp
      · exact ih (i + 1) h k (by omega) (by omega)

lemma scanSentence_some {text : Str} {s j : Nat} (h : scanSentence text s = some j) :
    s ≤ j ∧ j < text.length ∧ pySentenceEnd text j = true ∧
      ∀ k, s ≤ k → k < j → pySentenceEnd text k = false := by
  obtain ⟨h1, h2, h3⟩ := scanSentenceAux_some text _ _ _ h
  exact ⟨h1, pySentenceEnd_lt h2, h2, h3⟩

lemma scanSentence_none {text : Str} {s : Nat} (h : scanSentence text s = none) :
    ∀ k, s ≤ k → pySentenceEnd text k = false := by
  intro k hk
  by_cases hkl : k < text.length
  · exact scanSentenceAux_none text _ _ h k hk (by omega)
  · by_contra hp
    have hk : pySentenceEnd text k = true := by simpa using hp
    have := pySentenceEnd_lt hk
    omega

lemma findDNLAux_some (text : Str) :
    ∀ n i p, findDNLAux text n i = some p →
      i ≤ p ∧ isDNL text p = true ∧
        ∀ k, i ≤ k → k < p → isDNL text k = false := by
  intro n
  induction n with
  | zero => intro i p h; simp [findDNLAux] at h
  | succ n ih =>
    intro i p h
    rw [findDNLAux] at h
    by_cases hp : isDNL text i = true
    · simp [hp] at h
      subst h
      exact ⟨Nat.le_refl _, hp, fun k h1 h2 => absurd h1 (by omega)⟩
    · simp [hp] at h
      obtain ⟨h1, h2, h3⟩ := ih (i + 1) p h
      refine ⟨by omega, h2, fun k hk1 hk2 => ?_⟩
      rcases Nat.eq_or_lt_of_le hk1 with rfl | hlt
      · simpa using hp
      · exact h3 k (by omega) hk2

lemma findDNLAux_none (text : Str) :
    ∀ n i, findDNLAux text n i = none →
      ∀ k, i ≤ k → k < i + n → isDNL text k = false := by
  intro n
  induction n with
  | zero => intro i h k h1 h2; omega
  | succ n ih =>
    intro i h k h1 h2
    rw [findDNLAux] at h
    by_cases hp : isDNL text i = true
    · simp [hp] at h
    · simp [hp] at h
      rcases Nat.eq_or_lt_of_le h1 with rfl | hlt
      · simpa using hp
      · exact ih (i + 1) h k (by omega) (by omega)

lemma findDoubleNewline_some {text : Str} {s p : Nat}
    (h : findDoubleNewline text s = some p) :
    s ≤ p ∧ p + 1 < text.length ∧ isDNL text p = true ∧
      ∀ k, s ≤ k → k < p → isDNL text k = false := by
  obtain ⟨h1, h2, h3⟩ := findDNLAux_some text _ _ _ h
  exact ⟨h1, isDNL_lt h2, h2, h3⟩

lemma findDoubleNewline_none {text : Str} {s : Nat} (h : findDoubleNewline text s = none) :
    ∀ k, s ≤ k → isDNL text k = false := by
  intro k hk
  by_cases hkl : k + 1 < text.length
  · exact findDNLAux_none text _ _ h k hk (by omega)
  · by_contra hp
    have hk : isDNL text k = true := by simpa using hp
    have := isDNL_lt hk
    omega

/-- A positive return of find_sentence_boundary is a natural number n
with startPos ≤ n, 1 ≤ n and n ≤ len(text). -/
lemma find_sentence_boundary_pos {text : Str} {s : Nat}
    (h : 0 < find_sentence_boundary text s) :
    ∃ n : Nat, find_sentence_boundary text s = (n : Int) ∧
      s ≤ n ∧ 1 ≤ n ∧ n ≤ text.length := by
  unfold find_sentence_boundary at h ⊢
  cases hscan : scanSentence text s with
  | some j =>
    obtain ⟨h1, h2, _, _⟩ := scanSentence_some hscan
    exact ⟨j + 1, by push_cast; ring, by omega, by omega, by omega⟩
  | none =>
    cases hdnl : findDoubleNewline text s with
    | some p =>
      obtain ⟨h1, h2, _, _⟩ := findDoubleNewline_some hdnl
      by_cases hp : 0 < p
      · exact ⟨p, by simp [hscan, hdnl, hp], by omega, by omega, by omega⟩
      · simp [hscan, hdnl, hp] at h
    | none => simp [hscan, hdnl] at h

/-!  Lemmas about one iteration of the splitter loop, for the concrete
tokenizer. -/

/-- The emitted text of one iteration is nonempty and holds at most
maxS characters (equivalently, tokens, for the one-token-per-character
tokenizer). -/
lemma chunkPiece_fst (tokens : List Nat) (minS maxS start : Nat)
    (hstart : start < tokens.length) (hmax : 0 < maxS) :
    1 ≤ (chunkPiece charTok tokens minS maxS start).1.length ∧
      (chunkPiece charTok tokens minS maxS start).1.length ≤ maxS := by
  have hct : ∀ n : Nat, ((tokens.drop start).take n).length = min n (tokens.length - start) := by
    intro n; simp [List.length_take, List.length_drop]
  simp only [chunkPiece]
  split
  case isTrue hcond =>
    split
    case isTrue hse =>
      obtain ⟨n, hn, hsn, h1n, hnle⟩ := find_sentence_boundary_pos hse
      rw [hn]
      rw [charTok_decode_length, hct] at hnle
      simp only [Int.toNat_natCast, List.length_take, charTok_decode_length, hct]
      omega
    case isFalse hse =>
      simp only [charTok_decode_length, hct]
      omega
  case isFalse hcond =>
    simp only [charTok_decode_length, hct]
    omega

/-- The end cursor of one iteration never passes the end of the token
sequence, and when it stops short of the end the iteration covered at
least 80 percent of maxS tokens (boundary snap) or exactly maxS tokens
(token-exact cut). -/
lemma chunkPiece_snd (tokens : List Nat) (minS maxS start : Nat)
    (hstart : start < tokens.length) :
    (chunkPiece charTok tokens minS maxS start).2 ≤ tokens.length ∧
      ((chunkPiece charTok tokens minS maxS start).2 < tokens.length →
        8 * maxS / 10 ≤ (chunkPiece charTok tokens minS maxS start).2 - start ∨
          (chunkPiece charTok tokens minS maxS start).2 = start + maxS) := by
  have hct : ∀ n : Nat, ((tokens.drop start).take n).length = min n (tokens.length - start) := by
    intro n; simp [List.length_take, List.length_drop]
  simp only [chunkPiece]
  split
  case isTrue hcond =>
    obtain ⟨hlt, hmin⟩ := hcond
    have he : min (start + maxS) tokens.length = start + maxS := by omega
    split
    case isTrue hse =>
      obtain ⟨n, hn, hsn, h1n, hnle⟩ := find_sentence_boundary_pos hse
      rw [hn]
      rw [charTok_decode_length, hct, he] at hsn hnle
      simp only [Int.toNat_natCast, charTok_encode_length, List.length_take,
        charTok_decode_length, hct, he]
      omega
    case isFalse hse =>
      omega
  case isFalse hcond =>
    omega

/-- With fuel at least len(tokens) - start, the splitter loop completes
whenever the overlap is positive and smaller than the 80 percent search
window start, because every iteration then advances the cursor. -/
lemma chunkTextLoop_isSome (tokens : List Nat) (minS maxS ov : Nat)
    (hov : 0 < ov) (hlt : ov < 8 * maxS / 10) :
    ∀ fuel start, tokens.length ≤ start + fuel →
      (chunkTextLoop charTok tokens minS maxS ov fuel start).isSome := by
  intro fuel
  induction fuel with
  | zero =>
    intro start h
    rw [chunkTextLoop]
    split
    · omega
    · simp
  | succ fuel ih =>
    intro start h
    rw [chunkTextLoop]
    split
    case isTrue hstart =>
      simp only [Option.isSome_map']
      obtain ⟨hle, hadv⟩ := chunkPiece_snd tokens minS maxS start hstart
      by_cases hp2 : (chunkPiece charTok tokens minS maxS start).2 < tokens.length
      · have hd := hadv hp2
        rw [if_pos hp2]
        apply ih
        omega
      · rw [if_neg hp2]
        apply ih
        omega
    case isFalse => simp

/-- Every piece emitted by a completed splitter loop run is nonempty
and holds at most maxS characters. -/
lemma chunkTextLoop_mem (tokens : List Nat) (minS maxS ov : Nat) (hmax : 0 < maxS) :
    ∀ fuel start out, chunkTextLoop charTok tokens minS maxS ov fuel start = some out →
      ∀ c ∈ out, 1 ≤ c.length ∧ c.length ≤ maxS := by
  intro fuel
  induction fuel with
  | zero =>
    intro start out h c hc
    rw [chunkTextLoop] at h
    split at h
    · exact absurd h (by simp)
    · rw [Option.some_inj] at h
      subst h
      simp at hc
  | succ fuel ih =>
    intro start out h c hc
    rw [chunkTextLoop] at h
    split at h
    case isTrue hstart =>
      simp only [Option.map_eq_some'] at h
      obtain ⟨rest, hrest, hout⟩ := h
      subst hout
      rcases List.mem_cons.mp hc with rfl | hc2
      · exact chunkPiece_fst tokens minS maxS start hstart hmax
      · exact ih _ _ hrest c hc2
    case isFalse =>
      rw [Option.some_inj] at h
      subst h
      simp at hc

/-- chunk_text completes whenever the overlap is positive and smaller
than the 80 percent search window start; the default configuration
(800, 1000, 100) satisfies this, since 100 < 800 = 8 * 1000 / 10. -/
lemma chunk_text_isSome (text : Str) (minS maxS ov : Nat)
    (hov : 0 < ov) (hlt : ov < 8 * maxS / 10) :
    (chunk_text charTok text minS maxS ov).isSome := by
  simp only [chunk_text]
  split
  · simp
  · exact chunkTextLoop_isSome _ minS maxS ov hov hlt _ 0 (by omega)

/-- Every chunk returned by a completed chunk_text run holds at most
maxS characters, and is nonempty provided the input text is. -/
lemma chunk_text_some_mem {text : Str} {minS maxS ov : Nat} {out : List Str}
    (h : chunk_text charTok text minS maxS ov = some out) (hmax : 0 < maxS) :
    ∀ c ∈ out, c.length ≤ maxS ∧ (text ≠ [] → c ≠ []) := by
  intro c hc
  simp only [chunk_text] at h
  split at h
  case isTrue hle =>
    rw [Option.some_inj] at h
    subst h
    simp only [List.mem_singleton] at hc
    subst hc
    rw [charTok_encode_length] at hle
    exact ⟨hle, fun hne => hne⟩
  case isFalse hgt =>
    obtain ⟨h1, h2⟩ := chunkTextLoop_mem (charTok.encode text) minS maxS ov hmax _ _ _ h c hc
    exact ⟨h2, fun _ => List.ne_nil_of_length_pos h1⟩

/-!  Record projections of create_chunk_dict. -/

lemma create_chunk_dict_content (doc : ParsedDocument) (t : Str) (i : Nat)
    (a b : Option Str) : (create_chunk_dict doc t i a b).content = t := rfl

lemma create_chunk_dict_chunk_index (doc : ParsedDocument) (t : Str) (i : Nat)
    (a b : Option Str) : (create_chunk_dict doc t i a b).chunk_index = i := rfl

lemma create_chunk_dict_id (doc : ParsedDocument) (t : Str) (i : Nat)
    (a b : Option Str) :
    (create_chunk_dict doc t i a b).id =
      doc.document_id ++ ("_chunk_").data ++ (Nat.repr i).data := rfl

/-!  Section-level lemmas. -/

/-- Every record of a completed chunk_section run has content within
the token budget, and nonempty content provided the rendered section
text is nonempty. -/
lemma chunk_section_some_mem {doc : ParsedDocument} {s : DocSection}
    {out : List ChunkRecord} (h : chunk_section charTok doc s = some out) :
    ∀ c ∈ out, (charTok.encode c.content).length ≤ MAX_CHUNK_SIZE ∧
      (sectionText s ≠ [] → c.content ≠ []) := by
  intro c hc
  simp only [chunk_section] at h
  split at h
  case isTrue hle =>
    rw [Option.some_inj] at h
    subst h
    simp only [List.mem_singleton] at hc
    subst hc
    rw [create_chunk_dict_content]
    exact ⟨hle, fun hne => hne⟩
  case isFalse hgt =>
    simp only [Option.map_eq_some'] at h
    obtain ⟨ts, hts, hout⟩ := h
    subst hout
    simp only [List.mem_map] at hc
    obtain ⟨p, hp, rfl⟩ := hc
    rw [create_chunk_dict_content]
    have hne : sectionText s ≠ [] := by
      intro hnil
      rw [hnil] at hgt
      simp [charTok] at hgt
    obtain ⟨h1, h2⟩ := chunk_text_some_mem hts (by norm_num [MAX_CHUNK_SIZE])
      p.2 (List.snd_mem_of_mem_enum hp)
    rw [charTok_encode_length]
    exact ⟨h1, fun _ => h2 hne⟩

/-- Every record of a completed run of the section loop has content
within the token budget, and nonempty content provided every rendered
section text is nonempty. -/
lemma chunkSections_some_mem {doc : ParsedDocument} :
    ∀ {secs : List DocSection} {out : List ChunkRecord},
      chunkSections charTok doc secs = some out →
      ∀ c ∈ out, (charTok.encode c.content).length ≤ MAX_CHUNK_SIZE ∧
        ((∀ s ∈ secs, sectionText s ≠ []) → c.content ≠ []) := by
  intro secs
  induction secs with
  | nil =>
    intro out h c hc
    simp only [chunkSections, Option.some_inj] at h
    subst h
    simp at hc
  | cons s rest ih =>
    intro out h c hc
    cases hcs : chunk_section charTok doc s with
    | none => simp [chunkSections, hcs] at h
    | some cs =>
      cases hrest : chunkSections charTok doc rest with
      | none => simp [chunkSections, hcs, hrest] at h
      | some csRest =>
        simp only [chunkSections, hcs, hrest, Option.some_inj] at h
        subst h
        rcases List.mem_append.mp hc with hc1 | hc2
        · obtain ⟨h1, h2⟩ := chunk_section_some_mem hcs c hc1
          exact ⟨h1, fun hall => h2 (hall s (List.mem_cons_self s rest))⟩
        · obtain ⟨h1, h2⟩ := ih hrest c hc2
          exact ⟨h1, fun hall => h2 (fun t ht => hall t (List.mem_cons_of_mem s ht))⟩

/-!  Renumbering lemmas. -/

lemma renumber_length : ∀ (cs : List ChunkRecord) (i : Nat),
    (renumber cs i).length = cs.length := by
  intro cs
  induction cs with
  | nil => intro i; rfl
  | cons c cs ih => intro i; simp [renumber, ih]

lemma renumber_map_content : ∀ (cs : List ChunkRecord) (i : Nat),
    (renumber cs i).map ChunkRecord.content = cs.map ChunkRecord.content := by
  intro cs
  induction cs with
  | nil => intro i; rfl
  | cons c cs ih => intro i; simp [renumber, ih]

lemma renumber_map_chunk_index : ∀ (cs : List ChunkRecord) (i : Nat),
    (renumber cs i).map ChunkRecord.chunk_index = List.range' i cs.length := by
  intro cs
  induction cs with
  | nil => intro i; rfl
  | cons c cs ih => intro i; simp [renumber, ih, List.range']

/-!  Equivalence of the staged-pipeline copy with the single-pass
module at the default configuration. -/

lemma multi_pySentenceEnd_eq : Multi.pySentenceEnd = pySentenceEnd := rfl

lemma multi_isDNL_eq : Multi.isDNL = isDNL := rfl

lemma multi_scanSentenceAux_eq (text : Str) :
    ∀ n i, Multi.scanSentenceAux text n i = scanSentenceAux text n i := by
  intro n
  induction n with
  | zero => intro i; rfl
  | succ n ih =>
    intro i
    rw [Multi.scanSentenceAux, scanSentenceAux, ih, multi_pySentenceEnd_eq]

lemma multi_findDNLAux_eq (text : Str) :
    ∀ n i, Multi.findDNLAux text n i = findDNLAux text n i := by
  intro n
  induction n with
  | zero => intro i; rfl
  | succ n ih =>
    intro i
    rw [Multi.findDNLAux, findDNLAux, ih, multi_isDNL_eq]

lemma multi_find_sentence_boundary_eq (text : Str) (s : Nat) :
    Multi.find_sentence_boundary text s = find_sentence_boundary text s := by
  simp only [Multi.find_sentence_boundary, find_sentence_boundary,
    Multi.scanSentence, scanSentence, Multi.findDoubleNewline, findDoubleNewline,
    multi_scanSentenceAux_eq, multi_findDNLAux_eq]

lemma multi_chunkPiece_eq (T : Tokenizer) (tokens : List Nat) (start : Nat) :
    Multi.chunkPiece T tokens start =
      chunkPiece T tokens MIN_CHUNK_SIZE MAX_CHUNK_SIZE start := by
  simp only [Multi.chunkPiece, chunkPiece, multi_find_sentence_boundary_eq,
    Multi.MIN_CHUNK_SIZE, MIN_CHUNK_SIZE, Multi.MAX_CHUNK_SIZE, MAX_CHUNK_SIZE]

lemma multi_chunkTextLoop_eq (T : Tokenizer) (tokens : List Nat) :
    ∀ fuel start, Multi.chunkTextLoop T tokens fuel start =
      chunkTextLoop T tokens MIN_CHUNK_SIZE MAX_CHUNK_SIZE OVERLAP_SIZE fuel start := by
  intro fuel
  induction fuel with
  | zero => intro start; rfl
  | succ fuel ih =>
    intro start
    rw [Multi.chunkTextLoop, chunkTextLoop]
    simp only [multi_chunkPiece_eq, ih, Multi.OVERLAP_SIZE, OVERLAP_SIZE]

lemma multi_chunk_text_eq (T : Tokenizer) (text : Str) :
    Multi.chunk_text T text =
      chunk_text T text MIN_CHUNK_SIZE MAX_CHUNK_SIZE OVERLAP_SIZE := by
  simp only [Multi.chunk_text, chunk_text, multi_chunkTextLoop_eq,
    Multi.MAX_CHUNK_SIZE, MAX_CHUNK_SIZE]

lemma multi_sectionText_eq : Multi.sectionText = sectionText := rfl

lemma multi_create_chunk_dict_eq : Multi.create_chunk_dict = create_chunk_dict := rfl

lemma multi_chunk_section_eq (T : Tokenizer) (doc : ParsedDocument) (s : DocSection) :
    Multi.chunk_section T doc s = chunk_section T doc s := by
  simp only [Multi.chunk_section, chunk_section, multi_chunk_text_eq,
    multi_sectionText_eq, multi_create_chunk_dict_eq,
    Multi.MAX_CHUNK_SIZE, MAX_CHUNK_SIZE]

lemma multi_chunkSections_eq (T : Tokenizer) (doc : ParsedDocument) :
    ∀ secs, Multi.chunkSections T doc secs = chunkSections T doc secs := by
  intro secs
  induction secs with
  | nil => rfl
  | cons s rest ih =>
    rw [Multi.chunkSections, chunkSections, multi_chunk_section_eq, ih]

lemma multi_renumber_eq : Multi.renumber = renumber := by
  funext cs
  induction cs with
  | nil => funext i; rfl
  | cons c cs ih =>
    funext i
    rw [Multi.renumber, renumber]
    rw [ih]

/-!  Concrete inputs used by the claim theorems below. -/

/-- A document with two short sections of one paragraph each. -/
def docTwoSections : ParsedDocument :=
  { document_id := ("D").data
    title := ("T").data
    document_type := none
    publication_date := none
    effective_date := none
    year := none
    sections :=
      [ { number := some ("1").data, heading := none, paragraphs := [("A.").data] },
        { number := some ("2").data, heading := none, paragraphs := [("B.").data] } ]
    full_text := []
    last_modified := none }

/-- The output sequence the embedding computes for docTwoSections. -/
def outTwoSections : List ChunkRecord :=
  (chunk_document charTok docTwoSections).getD []

/-- A section with no heading and no paragraphs. -/
def secNoParas : DocSection :=
  { number := none, heading := none, paragraphs := [] }

/-- A document whose single section has no heading and no paragraphs. -/
def docEmptySection : ParsedDocument :=
  { document_id := ("D").data
    title := ("T").data
    document_type := none
    publication_date := none
    effective_date := none
    year := none
    sections := [secNoParas]
    full_text := []
    last_modified := none }

/-- A document with no sections and empty full text. -/
def docEmpty : ParsedDocument :=
  { document_id := ("D").data
    title := ("T").data
    document_type := none
    publication_date := none
    effective_date := none
    year := none
    sections := []
    full_text := []
    last_modified := none }

/-- A placeholder record for list head defaults in witnesses. -/
def dummyRecord : ChunkRecord := create_chunk_dict docEmpty [] 0 none none

/-- Twenty characters on which the splitter loop never advances its
cursor when maxSize is 10 and overlap is 9: every window cuts at the
sentence boundary nine tokens in, and the overlap puts the cursor back
at its old position. -/
def textStuck : Str := ("aaaaaaaa. aaaaaaaa. ").data

/-- 1001 identical letters: one token over the default budget, with no
sentence or paragraph boundary anywhere. -/
def textOversized : Str := List.replicate 1001 'a'

/-- The splitter loop run on textStuck re-enters cursor 0 on every
iteration, hence completes under no fuel bound at all. -/
lemma chunkTextLoop_textStuck_none :
    ∀ fuel, chunkTextLoop charTok (charTok.encode textStuck) 1 10 9 fuel 0 = none := by
  intro fuel
  induction fuel with
  | zero => rfl
  | succ fuel ih =>
    have hstep : chunkTextLoop charTok (charTok.encode textStuck) 1 10 9 (fuel + 1) 0 =
        (chunkTextLoop charTok (charTok.encode textStuck) 1 10 9 fuel 0).map
          (fun rest => (("aaaaaaaa.").data) :: rest) := rfl
    rw [hstep, ih]
    rfl

/-!  Claim theorems. -/

/-- Claim C1.  The claim states that every record id equals the document
id followed by the literal text _chunk_ and that record's document-global
chunk_index, with ids unique in the output.  The code violates this: on
a document with two one-chunk sections, the global renumbering of
chunk.py line 61 updates only the chunk_index field, so the second
record carries chunk_index 1 but keeps the id built from its
section-local index 0, and the two records share one id. -/
theorem chunk_ids_stale_after_renumber :
    (chunk_document charTok docTwoSections).map (List.map ChunkRecord.chunk_index) =
        some [0, 1] ∧
      (chunk_document charTok docTwoSections).map (List.map ChunkRecord.id) =
        some [("D_chunk_0").data, ("D_chunk_0").data] ∧
      ("D_chunk_0").data ≠ ("D_chunk_1").data := by
  refine ⟨by decide, by decide, by decide⟩

/-- Claim C2, counterexample.  The claim states that a section with an
empty paragraphs list contributes zero records.  On a document whose
single section has no heading and no paragraphs, chunk_document emits
one record, not zero. -/
theorem empty_section_not_skipped_cex :
    docEmptySection.sections = [secNoParas] ∧ secNoParas.paragraphs = [] ∧
      (chunk_document charTok docEmptySection).map List.length = some 1 := by
  refine ⟨rfl, rfl, by decide⟩

/-- Claim C2, amended.  Sections are not filtered: a section whose
paragraphs list is empty still reaches chunk_section, and produces
exactly one record (whose content is the rendered heading line, or the
empty string when there is no heading) whenever its rendered text is
within the token budget. -/
theorem empty_paragraphs_single_chunk (T : Tokenizer) (doc : ParsedDocument)
    (s : DocSection) (_hp : s.paragraphs = [])
    (hlen : (T.encode (sectionText s)).length ≤ MAX_CHUNK_SIZE) :
    chunk_section T doc s =
      some [create_chunk_dict doc (sectionText s) 0 s.number s.heading] := by
  simp only [chunk_section]
  rw [if_pos hlen]

/-- Witness for the amended claim C2, at the paragraph-less section of
docEmptySection. -/
theorem empty_paragraphs_single_chunk_witness :
    chunk_section charTok docEmptySection secNoParas =
      some [create_chunk_dict docEmptySection (sectionText secNoParas) 0
        secNoParas.number secNoParas.heading] :=
  empty_paragraphs_single_chunk charTok docEmptySection secNoParas rfl (by decide)

/-- Claim C3, counterexample.  The claim states that emitted content is
never empty.  The document whose single section has no heading and no
paragraphs yields one record whose content is the empty string. -/
theorem chunk_content_empty_cex :
    (chunk_document charTok docEmptySection).map (List.map ChunkRecord.content) =
      some [[]] := by
  decide

/-- Claim C3, amended.  Every record of a completed chunk_document run
has content within the token budget as measured by the tokenizer, and
the content is nonempty provided every section of the document has
nonempty rendered text (the full-text fallback needs no proviso, since
it only runs on nonempty text). -/
theorem chunk_content_bounded (doc : ParsedDocument) (out : List ChunkRecord)
    (h : chunk_document charTok doc = some out) :
    ∀ c ∈ out, (charTok.encode c.content).length ≤ MAX_CHUNK_SIZE ∧
      ((∀ s ∈ doc.sections, sectionText s ≠ []) → c.content ≠ []) := by
  intro c hc
  simp only [chunk_document] at h
  split at h
  case isTrue hs =>
    simp only [Option.map_eq_some'] at h
    obtain ⟨cs, hcs, hout⟩ := h
    subst hout
    have hmem : c.content ∈ (renumber cs 0).map ChunkRecord.content :=
      List.mem_map_of_mem _ hc
    rw [renumber_map_content] at hmem
    obtain ⟨d, hd, hdc⟩ := List.mem_map.mp hmem
    obtain ⟨h1, h2⟩ := chunkSections_some_mem hcs d hd
    rw [← hdc]
    exact ⟨h1, h2⟩
  case isFalse hs =>
    split at h
    case isTrue hft =>
      simp only [Option.map_eq_some'] at h
      obtain ⟨ts, hts, hout⟩ := h
      subst hout
      simp only [List.mem_map] at hc
      obtain ⟨p, hp, rfl⟩ := hc
      rw [create_chunk_dict_content, charTok_encode_length]
      have hne : doc.full_text ≠ [] := by
        intro hnil
        rw [hnil] at hft
        simp at hft
      obtain ⟨h1, h2⟩ := chunk_text_some_mem hts (by norm_num [MAX_CHUNK_SIZE])
        p.2 (List.snd_mem_of_mem_enum hp)
      exact ⟨h1, fun _ => h2 hne⟩
    case isFalse hft =>
      rw [Option.some_inj] at h
      subst h
      simp at hc

/-- Witness for the amended claim C3, at the first record of the
two-section document. -/
theorem chunk_content_bounded_witness :
    (charTok.encode (outTwoSections.headD dummyRecord).content).length ≤
        MAX_CHUNK_SIZE ∧
      (outTwoSections.headD dummyRecord).content ≠ [] :=
  ⟨(chunk_content_bounded docTwoSections outTwoSections rfl _ (by decide)).1,
   (chunk_content_bounded docTwoSections outTwoSections rfl _ (by decide)).2
     (by decide)⟩

/-- Claim C4.  For every tokenizer and every document on which
chunk_document completes, the chunk_index fields of the output are
exactly 0, 1, ..., N-1 in order. -/
theorem chunk_index_sequential (T : Tokenizer) (doc : ParsedDocument)
    (out : List ChunkRecord) (h : chunk_document T doc = some out) :
    out.map ChunkRecord.chunk_index = List.range out.length := by
  simp only [chunk_document] at h
  split at h
  case isTrue hs =>
    simp only [Option.map_eq_some'] at h
    obtain ⟨cs, hcs, hout⟩ := h
    subst hout
    rw [renumber_map_chunk_index, renumber_length, List.range_eq_range']
  case isFalse hs =>
    split at h
    case isTrue hft =>
      simp only [Option.map_eq_some'] at h
      obtain ⟨ts, hts, hout⟩ := h
      subst hout
      rw [List.map_map]
      have hcomp : (ChunkRecord.chunk_index ∘
          fun p : Nat × Str => create_chunk_dict doc p.2 p.1 none none) = Prod.fst := by
        funext p
        rfl
      rw [hcomp, List.enum_map_fst, List.length_map, List.enum_length]
    case isFalse hft =>
      rw [Option.some_inj] at h
      subst h
      rfl

/-- Witness for claim C4, at the two-section document. -/
theorem chunk_index_sequential_witness :
    outTwoSections.map ChunkRecord.chunk_index = List.range outTwoSections.length :=
  chunk_index_sequential charTok docTwoSections outTwoSections rfl

/-- Claim C5, counterexample.  The claim asserts termination for every
configuration with positive overlap below the maximum.  With maxSize 10
and overlap 9 (both positive, 9 < 10), on twenty characters of two
sentences the loop snaps every window at offset 9 and the overlap
returns the cursor to 0, so the splitter never terminates; the
embedding reports the exhausted run as none, and the companion lemma
chunkTextLoop_textStuck_none shows no fuel bound completes it. -/
theorem splitter_nonterminating_cex :
    0 < 9 ∧ 9 < 10 ∧ 10 < (charTok.encode textStuck).length ∧
      chunk_text charTok textStuck 1 10 9 = none := by
  refine ⟨by decide, by decide, by decide, ?_⟩
  simp only [chunk_text]
  rw [if_neg (by decide)]
  exact chunkTextLoop_textStuck_none ((charTok.encode textStuck).length + 1)

/-- Claim C5, amended.  The splitter terminates for every configuration
in which the overlap is positive and smaller than the 80 percent
boundary-search window start, 8 * maxSize / 10 — every iteration then
advances the cursor, whether or not a boundary is found.  The default
configuration satisfies this: 100 < 800 = 8 * 1000 / 10. -/
theorem chunk_text_terminates (text : Str) (minS maxS ov : Nat)
    (hov : 0 < ov) (hlt : ov < 8 * maxS / 10) :
    (chunk_text charTok text minS maxS ov).isSome :=
  chunk_text_isSome text minS maxS ov hov hlt

/-- Witness for the amended claim C5: the splitter completes on 2500
characters at the default configuration. -/
theorem chunk_text_terminates_witness :
    (chunk_text charTok (List.replicate 2500 'a')
      MIN_CHUNK_SIZE MAX_CHUNK_SIZE OVERLAP_SIZE).isSome :=
  chunk_text_terminates (List.replicate 2500 'a')
    MIN_CHUNK_SIZE MAX_CHUNK_SIZE OVERLAP_SIZE (by decide) (by decide)

/-- Claim C6, counterexample.  The claim states that when no sentence
boundary exists the function returns the offset of the first double
newline at or after start_pos.  On text beginning with a double newline
and start_pos 0, that offset is 0, but the guard para_pos greater than
zero (chunk.py line 197) makes the function return -1 instead. -/
theorem boundary_dnl_at_zero_cex :
    (∀ i, pySentenceEnd (("\n\nab").data) i = false) ∧
      isDNL (("\n\nab").data) 0 = true ∧
      find_sentence_boundary (("\n\nab").data) 0 = -1 := by
  refine ⟨?_, by decide, by decide⟩
  intro i
  match i with
  | 0 => decide
  | 1 => decide
  | 2 => decide
  | 3 => decide
  | n + 4 =>
    have hnone : (("\n\nab").data)[n + 4]? = none := by
      apply List.getElem?_eq_none
      simp
    simp [pySentenceEnd, List.get?_eq_getElem?, hnone]

/-- Claim C6, amended.  find_sentence_boundary returns the offset just
past the first sentence-ending character at or after start_pos; when
there is none, it falls back to the first double newline at or after
start_pos provided its offset is positive, and returns -1 when that
offset is 0 or when no double newline exists either. -/
theorem find_sentence_boundary_correct (text : Str) (s : Nat) :
    (∀ i, s ≤ i → pySentenceEnd text i = true →
      ∃ j, s ≤ j ∧ j ≤ i ∧ pySentenceEnd text j = true ∧
        (∀ k, s ≤ k → k < j → pySentenceEnd text k = false) ∧
        find_sentence_boundary text s = (j : Int) + 1) ∧
    ((∀ i, s ≤ i → pySentenceEnd text i = false) →
      (∀ p, s ≤ p → isDNL text p = true →
        ∃ q, s ≤ q ∧ q ≤ p ∧ isDNL text q = true ∧
          (∀ k, s ≤ k → k < q → isDNL text k = false) ∧
          find_sentence_boundary text s = (if 0 < q then (q : Int) else -1)) ∧
      ((∀ p, s ≤ p → isDNL text p = false) → find_sentence_boundary text s = -1)) := by
  constructor
  · intro i hi hpi
    cases hscan : scanSentence text s with
    | none => exact absurd hpi (by simp [scanSentence_none hscan i hi])
    | some j =>
      obtain ⟨h1, h2, h3, h4⟩ := scanSentence_some hscan
      refine ⟨j, h1, ?_, h3, h4, ?_⟩
      · by_contra hij
        exact absurd hpi (by simp [h4 i hi (by omega)])
      · simp [find_sentence_boundary, hscan]
  · intro hnosent
    have hscan : scanSentence text s = none := by
      cases hscan : scanSentence text s with
      | none => rfl
      | some j =>
        obtain ⟨h1, _, h3, _⟩ := scanSentence_some hscan
        exact absurd h3 (by simp [hnosent j h1])
    constructor
    · intro p hp hdp
      cases hdnl : findDoubleNewline text s with
      | none => exact absurd hdp (by simp [findDoubleNewline_none hdnl p hp])
      | some q =>
        obtain ⟨h1, h2, h3, h4⟩ := findDoubleNewline_some hdnl
        refine ⟨q, h1, ?_, h3, h4, ?_⟩
        · by_contra hpq
          exact absurd hdp (by simp [h4 p hp (by omega)])
        · simp [find_sentence_boundary, hscan, hdnl]
    · intro hnodnl
      have hdnl : findDoubleNewline text s = none := by
        cases hdnl : findDoubleNewline text s with
        | none => rfl
        | some q =>
          obtain ⟨h1, _, h3, _⟩ := findDoubleNewline_some hdnl
          exact absurd h3 (by simp [hnodnl q h1])
      simp [find_sentence_boundary, hscan, hdnl]

/-- Witness for the amended claim C6: on the text ab. cd from position
0, the boundary is just past the period at index 2. -/
theorem find_sentence_boundary_correct_witness :
    ∃ j, 0 ≤ j ∧ j ≤ 2 ∧ pySentenceEnd (("ab. cd").data) j = true ∧
      (∀ k, 0 ≤ k → k < j → pySentenceEnd (("ab. cd").data) k = false) ∧
      find_sentence_boundary (("ab. cd").data) 0 = (j : Int) + 1 :=
  (find_sentence_boundary_correct (("ab. cd").data) 0).1 2 (by decide) (by decide)

/-- Claim C7.  The embedded chunk_document is a pure function of the
document, the tokenizer and the configuration: two calls on equal
inputs return equal record sequences, in every field. -/
theorem chunk_document_deterministic (T : Tokenizer) (d1 d2 : ParsedDocument)
    (h : d1 = d2) : chunk_document T d1 = chunk_document T d2 := by
  rw [h]

/-- Witness for claim C7, at the two-section document. -/
theorem chunk_document_deterministic_witness :
    chunk_document charTok docTwoSections = chunk_document charTok docTwoSections :=
  chunk_document_deterministic charTok docTwoSections docTwoSections rfl

/-- Claim C8.  At the default staged configuration (800, 1000, 100),
the staged-pipeline chunk_document of stage3_chunk.py agrees with the
single-pass chunk_document of chunk.py on every document and every
tokenizer. -/
theorem staged_equals_single_pass (T : Tokenizer) (doc : ParsedDocument) :
    Multi.chunk_document T doc = chunk_document T doc := by
  simp only [Multi.chunk_document, chunk_document, multi_chunkSections_eq,
    multi_chunk_text_eq, multi_create_chunk_dict_eq, multi_renumber_eq]

/-- Claim C9.  A document with no sections and empty full text yields
the empty record sequence, as a normal result. -/
theorem empty_document_yields_empty (T : Tokenizer) (doc : ParsedDocument)
    (h1 : doc.sections = []) (h2 : doc.full_text = []) :
    chunk_document T doc = some [] := by
  simp [chunk_document, h1, h2]

/-- Witness for claim C9. -/
theorem empty_document_yields_empty_witness :
    chunk_document charTok docEmpty = some [] :=
  empty_document_yields_empty charTok docEmpty rfl rfl

set_option maxRecDepth 20000 in
/-- Claim C10.  min_chunk_tokens is no lower bound on emitted chunk
size: on 1001 identical letters with the default configuration, the
splitter emits a 1000-token chunk and then a final 101-token chunk,
well below min_chunk_tokens = 800 — the minimum only gates whether
boundary snapping is attempted. -/
theorem min_size_not_lower_bound :
    MAX_CHUNK_SIZE < (charTok.encode textOversized).length ∧
      chunk_text charTok textOversized MIN_CHUNK_SIZE MAX_CHUNK_SIZE OVERLAP_SIZE =
        some [List.replicate 1000 'a', List.replicate 101 'a'] ∧
      (charTok.encode (List.replicate 101 'a')).length < MIN_CHUNK_SIZE := by
  refine ⟨by decide, by decide, by decide⟩

end Chunking
